import Mathlib

/-!
Verification of the session/authentication layer of the minimax-client-js
repository: a shallow embedding in Lean 4 of the token model, token
validity check, token stores, error taxonomy and classification, retry
policy, RowVersion handling, session management, and the single-flight
token refresh coordinator, together with theorems settling the spec claims.

Conventions of the embedding:
* JavaScript numbers that hold timestamps, durations and status codes are
  modelled as `Int` (all code paths use integer values only).
* JavaScript truthiness is modelled explicitly: a string is falsy exactly
  when it is empty, a number exactly when it is zero, `null`/`undefined`
  as `Option.none`.
* `async` code is modelled by explicit state passing; the concurrent
  behaviour of the refresh coordinator is modelled as a small-step machine
  over interleavings (see `SfState` below).
-/

/-- The OAuth2 token record (interface MinimaxToken, src/unnamed/part_001).
`access_token`, `token_type`, `expires_in` (seconds) and `refresh_token`
are required fields; `obtained_at` (ms timestamp) is optional because it is
stamped by the client only after a successful auth/refresh. -/
structure MinimaxToken where
  access_token : String
  token_type : String
  expires_in : Int
  refresh_token : String
  obtained_at : Option Int
deriving DecidableEq

/-- JS truthiness of an optional number: `undefined` and `0` are falsy. -/
def numTruthy : Option Int → Bool
  | none => false
  | some n => n != 0

/-- JS truthiness of a string: only the empty string is falsy. -/
def strTruthy (s : String) : Bool := s != ""

/-- `OAuth2Client.isTokenValid` (src/src/auth/index.ts, lines 208-223),
with the ambient clock `Date.now()` passed explicitly as `now`.
The guard `!token.expires_in || !token.obtained_at` uses JS truthiness,
so a present-but-zero field is also rejected. -/
def isTokenValid (token : Option MinimaxToken) (expirationBuffer : Int) (now : Int) : Bool :=
  match token with
  | none => false
  | some t =>
    if !(numTruthy (some t.expires_in)) || !(numTruthy t.obtained_at) then
      false
    else
      let expirationTime := t.obtained_at.getD 0 + t.expires_in * 1000
      decide (now < expirationTime - expirationBuffer)

/-- The validity predicate exactly as the claim words it (for comparison
with the code-level `isTokenValid`): false for a null token, false when
`expires_in` or `obtained_at` is absent, false when
`now >= obtained_at + expires_in*1000 - buffer`, true otherwise. -/
def isTokenValidClaim (token : Option MinimaxToken) (expirationBuffer : Int) (now : Int) : Bool :=
  match token with
  | none => false
  | some t =>
    match t.obtained_at with
    | none => false
    | some ob => decide (now < ob + t.expires_in * 1000 - expirationBuffer)

/-- C3 counterexample: for the token with `obtained_at = 0` (present but
zero), the claim's validity predicate says the token is valid at
`now = 1000` with buffer `0` (since `1000 < 0 + 3600*1000 - 0`), but the
code returns `false` because `!token.obtained_at` treats `0` as absent. -/
theorem isTokenValid_zero_obtained_counterexample :
    isTokenValidClaim (some ⟨"a", "bearer", 3600, "r", some 0⟩) 0 1000 = true ∧
    isTokenValid (some ⟨"a", "bearer", 3600, "r", some 0⟩) 0 1000 = false := by
  decide

/-- C3 (amended): `isTokenValid token buffer now` returns `true` exactly
when the token is present, both `expires_in` and `obtained_at` are present
and nonzero, and `now` is strictly before
`obtained_at + expires_in*1000 - buffer`; in particular it is `false` for
a null token, `false` when either expiry field is absent or zero, and
`false` exactly at the buffer edge. -/
theorem isTokenValid_characterization (token : Option MinimaxToken) (buffer now : Int) :
    isTokenValid token buffer now = true ↔
    (∃ t ob, token = some t ∧ t.obtained_at = some ob ∧ t.expires_in ≠ 0 ∧ ob ≠ 0 ∧
      now < ob + t.expires_in * 1000 - buffer) := by
  cases token with
  | none => simp [isTokenValid]
  | some t =>
    cases hob : t.obtained_at with
    | none => simp [isTokenValid, numTruthy, hob]
    | some ob =>
      by_cases he : t.expires_in = 0
      · simp [isTokenValid, numTruthy, hob, he]
      · by_cases hz : ob = 0
        · simp [isTokenValid, numTruthy, hob, he, hz]
        · simp [isTokenValid, numTruthy, hob, he, hz]

/-! ### String utilities used by the error classifier

`String.prototype.toLowerCase` / `includes` and the regex
`/RowVersion:\s*([^\s]+)/i` are modelled over character lists. The inputs
are ASCII API messages, so `Char.toLower` and `Char.isWhitespace` coincide
with the JS behaviour on the relevant alphabet. -/

/-- Is the first list a prefix of the second? -/
def isPrefL : List Char → List Char → Bool
  | [], _ => true
  | _ :: _, [] => false
  | a :: as, b :: bs => a == b && isPrefL as bs

/-- Does the second list contain the first as a contiguous sublist? -/
def containsSub (needle : List Char) : List Char → Bool
  | [] => isPrefL needle []
  | c :: t => isPrefL needle (c :: t) || containsSub needle t

/-- `hay.toLowerCase().includes(needle)` for an already-lowercase needle. -/
def containsLC (hay needle : String) : Bool :=
  containsSub needle.data (hay.data.map Char.toLower)

/-- The literal characters of the regex key `RowVersion:` (lowercased). -/
def rvKey : List Char := "rowversion:".data

/-- Scanner for `/RowVersion:\s*([^\s]+)/i`: find the leftmost
case-insensitive occurrence of `RowVersion:` that is followed (after
optional whitespace) by at least one non-whitespace character, and return
that maximal non-whitespace run (the capture group, in original case). -/
def extractRVAux : List Char → Option (List Char)
  | [] => none
  | c :: t =>
    if isPrefL rvKey ((c :: t).map Char.toLower) then
      let rest := (c :: t).drop rvKey.length
      let v := (rest.dropWhile (fun d => d.isWhitespace)).takeWhile (fun d => !d.isWhitespace)
      if v.isEmpty then extractRVAux t else some v
    else extractRVAux t

/-- `message.match(/RowVersion:\s*([^\s]+)/i)`, returning the capture. -/
def extractRowVersion (msg : String) : Option String :=
  (extractRVAux msg.data).map (fun l => String.mk l)

/-- `parseInt(s, 10)`: optional whitespace, optional sign, a nonempty
digit prefix; `none` models `NaN`. (A `NaN` stored in `retryAfter` is
falsy wherever the code later tests it, matching `none` here.) -/
def jsParseInt (s : String) : Option Int :=
  let l := s.data.dropWhile (fun c => c.isWhitespace)
  let p := match l with
    | '-' :: t => ((-1 : Int), t)
    | '+' :: t => ((1 : Int), t)
    | _ => ((1 : Int), l)
  let ds := p.2.takeWhile (fun c => c.isDigit)
  if ds.isEmpty then none
  else some (p.1 * (ds.foldl (fun a c => a * 10 + ((c.toNat : Int) - ('0'.toNat : Int))) 0))

/-! ### Error taxonomy (src/src/types/errors.ts)

Each error class carries `message`, optional `statusCode` and kind-specific
fields. The `originalError` field (an untyped passthrough of the raw
error object, never inspected by any code under verification) is not
modelled; `ValidationError.validationErrors` is carried as the raw
`details` payload it is parsed from (no claim inspects its parsed form). -/

inductive MError where
  | minimax (message : String) (statusCode : Option Int)
  | authentication (message : String) (statusCode : Option Int)
  | validation (message : String) (validationDetails : Option String) (statusCode : Option Int)
  | notFound (message : String) (statusCode : Option Int)
  | concurrency (message : String) (currentRowVersion : Option String) (statusCode : Option Int)
  | rateLimit (message : String) (retryAfter : Option Int) (statusCode : Option Int)
  | server (message : String) (statusCode : Option Int)
  | network (message : String)
deriving DecidableEq

/-- The `message` property of a typed error. -/
def MError.message : MError → String
  | .minimax m _ => m
  | .authentication m _ => m
  | .validation m _ _ => m
  | .notFound m _ => m
  | .concurrency m _ _ => m
  | .rateLimit m _ _ => m
  | .server m _ => m
  | .network m => m

/-- The `statusCode` property of a typed error (`NetworkError` always
constructs with `statusCode = undefined`). -/
def MError.statusCode : MError → Option Int
  | .minimax _ sc => sc
  | .authentication _ sc => sc
  | .validation _ _ sc => sc
  | .notFound _ sc => sc
  | .concurrency _ _ sc => sc
  | .rateLimit _ _ sc => sc
  | .server _ sc => sc
  | .network _ => none

/-- `error instanceof AuthenticationError`. -/
def MError.isAuthentication : MError → Bool
  | .authentication _ _ => true
  | _ => false

/-- `error instanceof ConcurrencyError`. -/
def MError.isConcurrency : MError → Bool
  | .concurrency _ _ _ => true
  | _ => false

/-- The API error-response body (interface MinimaxErrorResponse). -/
structure MinimaxErrorResponse where
  error : Option String
  error_description : Option String
  message : Option String
  details : Option String
deriving DecidableEq

/-- JS `a || b` for an optional string `a` (absent or empty falls through). -/
def orFalsy (a : Option String) (b : String) : String :=
  match a with
  | some s => if strTruthy s then s else b
  | none => b

/-- The message derivation in `createErrorFromResponse`:
`error_description || message || error || 'Unknown API error'`. -/
def derivedMessage (r : MinimaxErrorResponse) : String :=
  orFalsy r.error_description (orFalsy r.message (orFalsy r.error "Unknown API error"))

/-- `createErrorFromResponse` (src/src/types/errors.ts, lines 120-174).
The `originalError` argument is carried opaquely by the code; the only
part of it the function reads - the `retry-after` response header - is
passed here explicitly. -/
def createErrorFromResponse (errorResponse : MinimaxErrorResponse) (statusCode : Option Int)
    (retryAfterHeader : Option String) : MError :=
  let message := derivedMessage errorResponse
  if statusCode == some 401 || statusCode == some 403 || containsLC message "auth" then
    .authentication message statusCode
  else if statusCode == some 404 || containsLC message "not found" then
    .notFound message statusCode
  else if statusCode == some 409 || containsLC message "concurrency" ||
      containsLC message "rowversion" then
    .concurrency message (extractRowVersion message) statusCode
  else if statusCode == some 422 || statusCode == some 400 then
    .validation message errorResponse.details statusCode
  else if statusCode == some 429 then
    .rateLimit message (retryAfterHeader.bind jsParseInt) statusCode
  else
    match statusCode with
    | some sc => if sc ≥ 500 then .server message statusCode else .minimax message statusCode
    | none => .minimax message statusCode

/-! ### Raw errors and the error-middleware chain

A raw error reaching `ErrorMiddlewareManager.processError` is either an
already-typed `MinimaxError`, an Axios transport error (optionally
carrying a response), or some other thrown object. The dynamic property
reads `error.statusCode` / `error.message` performed by the concurrency
middleware are modelled by `rawStatusCode` / `rawMessage`: an Axios or
plain error has no `statusCode` property, and every `Error` instance has
a string `message`. -/

/-- An Axios response attached to a transport error: its status, parsed
body, and the `retry-after` header (the only header the code reads). -/
structure AxiosResp where
  status : Int
  data : MinimaxErrorResponse
  retryAfterHeader : Option String
deriving DecidableEq

/-- A raw error entering the middleware chain. -/
inductive RawError where
  | typed (e : MError)
  | axios (response : Option AxiosResp) (hasRequest : Bool) (message : String)
  | other (message : String)
deriving DecidableEq

/-- The dynamic `error.statusCode` read: present only on typed errors. -/
def rawStatusCode : RawError → Option Int
  | .typed e => e.statusCode
  | .axios _ _ _ => none
  | .other _ => none

/-- The dynamic `error.message` read. -/
def rawMessage : RawError → String
  | .typed e => e.message
  | .axios _ _ m => m
  | .other m => m

/-- `RowVersionHandler.handleConcurrencyError` (src/src/http/row-version.ts,
lines 78-100). Returns `some e2` when the code constructs a fresh
`ConcurrencyError` `e2`, and `none` when it returns the original error
object unchanged (the identity comparison `processedError !== error` in
`createErrorMiddleware` distinguishes exactly these two cases, since a
freshly constructed error is never identical to the input). -/
def handleConcurrencyError (err : RawError) : Option MError :=
  if rawStatusCode err == some 409 ||
      (strTruthy (rawMessage err) && containsLC (rawMessage err) "concurrency") then
    match extractRowVersion (rawMessage err) with
    | some rv =>
      some (.concurrency
        ("Concurrency conflict: The resource has been modified. Current RowVersion: " ++ rv)
        (some rv) (rawStatusCode err))
    | none => none
  else none

/-- The built-in final handler of the middleware chain
(src/src/http/error-middleware.ts, lines 63-85). -/
def finalHandler (err : RawError) : MError :=
  match err with
  | .typed e => e
  | .axios (some resp) _ _ =>
    createErrorFromResponse resp.data (some resp.status) resp.retryAfterHeader
  | .axios none _ m =>
    .minimax ("API request failed: " ++ (if strTruthy m then m else "Unknown error")) none
  | .other m =>
    .minimax ("API request failed: " ++ (if strTruthy m then m else "Unknown error")) none

/-- The error-middleware chain as installed by the `HttpClient`
constructor with default options (src/src/http/http-client.ts, lines
118-122): the RowVersion concurrency middleware runs first, delegating to
the built-in final handler when it leaves the error unchanged. -/
def defaultProcessError (err : RawError) : MError :=
  match handleConcurrencyError err with
  | some e2 => e2
  | none => finalHandler err

/-- C10: `createErrorFromResponse` yields an `AuthenticationError` for
every response with status 403, and for every response whose derived
message contains the substring `auth` (case-insensitively), whatever the
status; the resulting error keeps the derived message and status, so this
branch takes precedence over every later classification. -/
theorem createErrorFromResponse_auth (resp : MinimaxErrorResponse) (sc : Option Int)
    (hdr : Option String)
    (h : sc = some 403 ∨ containsLC (derivedMessage resp) "auth" = true) :
    createErrorFromResponse resp sc hdr = .authentication (derivedMessage resp) sc := by
  rcases h with h | h
  · subst h
    simp [createErrorFromResponse]
  · simp [createErrorFromResponse, h]

/-- C10 witness: a 409 response whose body message mentions
authorization is classified as `AuthenticationError`, not
`ConcurrencyError`, and a plain 403 is classified as
`AuthenticationError`. -/
theorem createErrorFromResponse_auth_witness :
    createErrorFromResponse ⟨none, none, some "Forbidden", none⟩ (some 403) none =
      .authentication "Forbidden" (some 403) ∧
    createErrorFromResponse ⟨none, none, some "Authorization expired", none⟩ (some 409) none =
      .authentication "Authorization expired" (some 409) := by
  constructor
  · exact createErrorFromResponse_auth ⟨none, none, some "Forbidden", none⟩ (some 403) none
      (Or.inl rfl)
  · exact createErrorFromResponse_auth ⟨none, none, some "Authorization expired", none⟩
      (some 409) none (Or.inr (by decide))

/-- C6 counterexample: an error that is already a typed
`ConcurrencyError` - with status 409 and a message carrying an extractable
RowVersion - is not returned unchanged by the default middleware chain:
the built-in concurrency middleware replaces it with a freshly built
`ConcurrencyError` whose message is the handler's own template. -/
theorem processError_not_idempotent_counterexample :
    defaultProcessError (.typed (.concurrency
        "Concurrency conflict. Current RowVersion: xyz789" (some "xyz789") (some 409))) ≠
      .concurrency "Concurrency conflict. Current RowVersion: xyz789" (some "xyz789")
        (some 409) ∧
    defaultProcessError (.typed (.concurrency
        "Concurrency conflict. Current RowVersion: xyz789" (some "xyz789") (some 409))) =
      .concurrency
        "Concurrency conflict: The resource has been modified. Current RowVersion: xyz789"
        (some "xyz789") (some 409) := by
  constructor
  · decide
  · decide

/-- C6 (amended): the default middleware chain returns an already-typed
error unchanged exactly when the built-in concurrency middleware does not
fire on it; when that middleware fires (status 409 or a message containing
`concurrency`, with an extractable RowVersion), the chain instead returns
the freshly built `ConcurrencyError` the middleware constructs. -/
theorem processError_typed_passthrough (e : MError) :
    (handleConcurrencyError (.typed e) = none → defaultProcessError (.typed e) = e) ∧
    (∀ m, handleConcurrencyError (.typed e) = some m →
      defaultProcessError (.typed e) = m ∧ m.isConcurrency = true) := by
  constructor
  · intro h
    simp [defaultProcessError, h, finalHandler]
  · intro m h
    refine ⟨by simp [defaultProcessError, h], ?_⟩
    unfold handleConcurrencyError at h
    by_cases hc : (rawStatusCode (.typed e) == some 409 ||
        (strTruthy (rawMessage (.typed e)) && containsLC (rawMessage (.typed e)) "concurrency"))
        = true
    · rw [if_pos hc] at h
      rcases hrv : extractRowVersion (rawMessage (.typed e)) with _ | rv
      · rw [hrv] at h
        exact absurd h (by simp)
      · rw [hrv] at h
        cases h
        rfl
    · rw [if_neg hc] at h
      exact absurd h (by simp)

/-- C6 witness: a typed `AuthenticationError` passes through the default
chain unchanged. -/
theorem processError_typed_passthrough_witness :
    defaultProcessError (.typed (.authentication "Invalid credentials" (some 401))) =
      .authentication "Invalid credentials" (some 401) :=
  (processError_typed_passthrough (.authentication "Invalid credentials" (some 401))).1
    (by decide)

/-- C5 counterexample: a failed request with response status 409 whose
body message happens to contain `auth` (here via the word Author) is
classified by the default chain as `AuthenticationError`, not
`ConcurrencyError`: the authentication branch of
`createErrorFromResponse` runs before the concurrency branch. -/
theorem concurrency_classification_counterexample :
    defaultProcessError
        (.axios (some ⟨409, ⟨none, none, some "Author field locked", none⟩, none⟩) true
          "Request failed with status code 409") =
      .authentication "Author field locked" (some 409) ∧
    MError.isConcurrency (defaultProcessError
        (.axios (some ⟨409, ⟨none, none, some "Author field locked", none⟩, none⟩) true
          "Request failed with status code 409")) = false := by
  constructor
  · decide
  · decide

/-- C5 (amended): a failed request whose response has status 409 is
classified by the default chain as a `ConcurrencyError` carrying
`currentRowVersion = extractRowVersion message` - in particular the
classification itself does not depend on the extraction succeeding -
provided the derived body message does not trip the earlier
authentication (`auth` substring) or not-found (`not found` substring)
branches, and the transport error's own message does not trip the
concurrency middleware directly. -/
theorem concurrency_classification_409 (body : MinimaxErrorResponse)
    (hdr : Option String) (hasReq : Bool) (axmsg : String)
    (hauth : containsLC (derivedMessage body) "auth" = false)
    (hnf : containsLC (derivedMessage body) "not found" = false)
    (hax : containsLC axmsg "concurrency" = false) :
    defaultProcessError (.axios (some ⟨409, body, hdr⟩) hasReq axmsg) =
      .concurrency (derivedMessage body) (extractRowVersion (derivedMessage body))
        (some 409) := by
  have hmw : handleConcurrencyError (.axios (some ⟨409, body, hdr⟩) hasReq axmsg) = none := by
    simp [handleConcurrencyError, rawStatusCode, rawMessage, hax]
  simp only [defaultProcessError, hmw, finalHandler]
  simp [createErrorFromResponse, hauth, hnf]

/-- C5 witness: the spec scenario - a 409 response with body message
`Concurrency conflict. Current RowVersion: xyz789` - reaches the caller
as a `ConcurrencyError` with `currentRowVersion = "xyz789"`. -/
theorem concurrency_classification_409_witness :
    defaultProcessError
        (.axios (some ⟨409, ⟨none, none,
            some "Concurrency conflict. Current RowVersion: xyz789", none⟩, none⟩) true
          "Request failed with status code 409") =
      .concurrency "Concurrency conflict. Current RowVersion: xyz789" (some "xyz789")
        (some 409) := by
  have h := concurrency_classification_409
    ⟨none, none, some "Concurrency conflict. Current RowVersion: xyz789", none⟩ none true
    "Request failed with status code 409" (by decide) (by decide) (by decide)
  rw [h]
  decide

/-! ### RowVersion injection (src/src/http/row-version.ts, lines 21-31)

Request bodies are untyped JS objects; they are modelled as association
lists from property names to JSON-like values, with JS property-read and
spread semantics made explicit. -/

/-- A JSON-like JS value (the shapes request bodies are built from). -/
inductive JVal where
  | str (s : String)
  | num (n : Int)
  | boolean (b : Bool)
  | jnull
deriving DecidableEq

/-- JS truthiness of a value. -/
def jvTruthy : JVal → Bool
  | .str s => s != ""
  | .num n => n != 0
  | .boolean b => b
  | .jnull => false

/-- A JS object: ordered properties with unique names. -/
abbrev JObj := List (String × JVal)

/-- Property read `o[k]`; `none` models `undefined`. -/
def getProp : JObj → String → Option JVal
  | [], _ => none
  | (k2, v) :: t, k => if k2 == k then some v else getProp t k

/-- Truthiness of the property read `o[k]` (`undefined` is falsy). -/
def propTruthy (o : JObj) (k : String) : Bool :=
  match getProp o k with
  | some v => jvTruthy v
  | none => false

/-- The spread `{...o, k: v}`: an existing property keeps its position and
gets the new value; a new property is appended (objects have unique
property names, so replacing the first occurrence is the JS behaviour). -/
def setProp : JObj → String → JVal → JObj
  | [], k, v => [(k, v)]
  | (k2, w) :: t, k, v => if k2 == k then (k, v) :: t else (k2, w) :: setProp t k v

/-- A Minimax resource (interface MinimaxResource): id plus the
concurrency token. -/
structure MinimaxResource where
  Id : String
  RowVersion : String
deriving DecidableEq

/-- `RowVersionHandler.addRowVersion` (src/src/http/row-version.ts, lines
21-31): `if (resource.RowVersion && !data.RowVersion)` inject, else return
`data` unchanged - both tests are JS truthiness tests. -/
def addRowVersion (resource : MinimaxResource) (data : JObj) : JObj :=
  if strTruthy resource.RowVersion && !(propTruthy data "RowVersion") then
    setProp data "RowVersion" (.str resource.RowVersion)
  else
    data

theorem getProp_setProp_self (o : JObj) (k : String) (v : JVal) :
    getProp (setProp o k v) k = some v := by
  induction o with
  | nil => simp [setProp, getProp]
  | cons p t ih =>
    obtain ⟨k2, w⟩ := p
    by_cases hk : k2 = k
    · simp [setProp, getProp, hk]
    · simp [setProp, getProp, hk, ih]

theorem getProp_setProp_ne (o : JObj) (k : String) (v : JVal) (k2 : String) (h : k2 ≠ k) :
    getProp (setProp o k v) k2 = getProp o k2 := by
  induction o with
  | nil =>
    have hne : ¬ (k = k2) := fun hc => h (Eq.symm hc)
    simp [setProp, getProp, hne]
  | cons p t ih =>
    obtain ⟨k3, w⟩ := p
    by_cases hk : k3 = k
    · have hne : ¬ (k = k2) := fun hc => h (Eq.symm hc)
      simp [setProp, getProp, hk, hne]
    · by_cases hk2 : k3 = k2
      · subst hk2
        simp [setProp, getProp, hk]
      · simp [setProp, getProp, hk, hk2, ih]

/-- C9 counterexample: when `data.RowVersion` is present but equal to the
empty string, the guard `!data.RowVersion` treats it as missing and
`addRowVersion` overwrites it with the resource's RowVersion - the claim
says a present `RowVersion` is left untouched. -/
theorem addRowVersion_present_empty_counterexample :
    addRowVersion ⟨"1", "abc123"⟩ [("RowVersion", .str "")] =
      [("RowVersion", .str "abc123")] ∧
    addRowVersion ⟨"1", "abc123"⟩ [("RowVersion", .str "")] ≠
      [("RowVersion", .str "")] := by
  constructor
  · decide
  · decide

/-- C9 (amended): `addRowVersion resource data` returns `data` unchanged
when `data.RowVersion` is present and truthy (non-empty), and also when
`resource.RowVersion` is empty (falsy); when `resource.RowVersion` is
non-empty and `data.RowVersion` is absent or falsy, it returns `data` with
`RowVersion` set to `resource.RowVersion` and every other property
unchanged. -/
theorem addRowVersion_characterization (resource : MinimaxResource) (data : JObj) :
    (propTruthy data "RowVersion" = true → addRowVersion resource data = data) ∧
    (resource.RowVersion = "" → addRowVersion resource data = data) ∧
    (strTruthy resource.RowVersion = true → propTruthy data "RowVersion" = false →
      getProp (addRowVersion resource data) "RowVersion" = some (.str resource.RowVersion) ∧
      ∀ k, k ≠ "RowVersion" → getProp (addRowVersion resource data) k = getProp data k) := by
  refine ⟨?_, ?_, ?_⟩
  · intro h
    simp [addRowVersion, h]
  · intro h
    simp [addRowVersion, strTruthy, h]
  · intro h1 h2
    have hcond : (strTruthy resource.RowVersion && !(propTruthy data "RowVersion")) = true := by
      simp [h1, h2]
    constructor
    · simp only [addRowVersion, if_pos hcond]
      exact getProp_setProp_self data "RowVersion" (.str resource.RowVersion)
    · intro k hk
      simp only [addRowVersion, if_pos hcond]
      exact getProp_setProp_ne data "RowVersion" (.str resource.RowVersion) k hk

/-- C9 witness: injecting into a body that has no RowVersion adds the
resource's token and leaves the other property unchanged. -/
theorem addRowVersion_characterization_witness :
    getProp (addRowVersion ⟨"1", "abc123"⟩ [("name", .str "Test")]) "RowVersion" =
      some (.str "abc123") ∧
    getProp (addRowVersion ⟨"1", "abc123"⟩ [("name", .str "Test")]) "name" =
      some (.str "Test") := by
  have h := (addRowVersion_characterization ⟨"1", "abc123"⟩ [("name", .str "Test")]).2.2
    (by decide) (by decide)
  exact ⟨h.1, by
    have h2 := h.2 "name" (by decide)
    rw [h2]
    decide⟩

/-! ### Retry policy (src/src/http/retry.ts)

`DefaultRetryStrategy.shouldRetry` reads only `maxRetries`,
`retryStatusCodes` and the optional `retryCondition` from the
configuration; the delay-related fields (floating-point backoff and
jitter) belong to `getRetryDelay`, which no claim is about, and are not
modelled. -/

/-- The part of `RetryConfig` consumed by `shouldRetry`. -/
structure RetryShouldConfig where
  maxRetries : Nat
  retryStatusCodes : List Int
  retryCondition : Option (RawError → Nat → Bool)

/-- The default values (`DEFAULT_RETRY_CONFIG`). -/
def defaultRetryShouldConfig : RetryShouldConfig :=
  ⟨3, [408, 429, 500, 502, 503, 504], none⟩

/-- `error instanceof NetworkError`. -/
def MError.isNetwork : MError → Bool
  | .network _ => true
  | _ => false

/-- `error instanceof RateLimitError`. -/
def MError.isRateLimit : MError → Bool
  | .rateLimit _ _ _ => true
  | _ => false

/-- `error instanceof ServerError`. -/
def MError.isServer : MError → Bool
  | .server _ _ => true
  | _ => false

/-- `DefaultRetryStrategy.shouldRetry` (src/src/http/retry.ts, lines
121-161). The `axiosError.response.status` truthiness test means a
response with status `0` falls through to the final `return false`. -/
def shouldRetry (cfg : RetryShouldConfig) (error : RawError) (retryCount : Nat) : Bool :=
  if retryCount ≥ cfg.maxRetries then false
  else
    match cfg.retryCondition with
    | some cond => cond error retryCount
    | none =>
      match error with
      | .typed e =>
        if e.isNetwork then true
        else if e.isRateLimit then true
        else if e.isServer then true
        else false
      | .axios response hasRequest _ =>
        match response with
        | some r => if r.status != 0 then cfg.retryStatusCodes.contains r.status else false
        | none => hasRequest
      | .other _ => false

/-- C8: with the custom `retryCondition` unset and a retryable-status set
not containing the falsy status `0` (as in the default configuration),
`shouldRetry` returns `true` exactly when the retry count is below
`maxRetries` and the error is a `NetworkError`, `RateLimitError` or
`ServerError`, or a transport error whose response status lies in the
retryable set, or a transport error with a request but no response. -/
theorem shouldRetry_characterization (cfg : RetryShouldConfig) (error : RawError)
    (retryCount : Nat) (hcond : cfg.retryCondition = none)
    (h0 : cfg.retryStatusCodes.contains 0 = false) :
    shouldRetry cfg error retryCount = true ↔
    (retryCount < cfg.maxRetries ∧
      ((∃ e, error = .typed e ∧ (e.isNetwork || e.isRateLimit || e.isServer) = true) ∨
       (∃ r hq m, error = .axios (some r) hq m ∧ cfg.retryStatusCodes.contains r.status = true) ∨
       (∃ m, error = .axios none true m))) := by
  unfold shouldRetry
  rw [hcond]
  by_cases hcap : retryCount ≥ cfg.maxRetries
  · rw [if_pos hcap]
    simp [Nat.not_lt.mpr hcap]
  · rw [if_neg hcap]
    have hlt : retryCount < cfg.maxRetries := Nat.lt_of_not_le hcap
    cases error with
    | typed e =>
      cases e <;> simp [MError.isNetwork, MError.isRateLimit, MError.isServer, hlt]
    | axios response hasRequest m =>
      cases response with
      | none =>
        cases hasRequest <;> simp [hlt]
      | some r =>
        by_cases hz : r.status = 0
        · have h0m : (0 : Int) ∉ cfg.retryStatusCodes := by
            simpa using h0
          simp [hz, hlt, h0m]
        · simp [hz, hlt]
    | other m => simp [hlt]

/-- C8 witness: with the default configuration, a `NetworkError` at retry
count 0 is retried, a 503 transport error at retry count 2 is retried, and
the characterization confirms a 503 at retry count 3 (the cap) is not. -/
theorem shouldRetry_characterization_witness :
    shouldRetry defaultRetryShouldConfig (.typed (.network "socket hang up")) 0 = true ∧
    shouldRetry defaultRetryShouldConfig
      (.axios (some ⟨503, ⟨none, none, none, none⟩, none⟩) true "boom") 2 = true ∧
    shouldRetry defaultRetryShouldConfig
      (.axios (some ⟨503, ⟨none, none, none, none⟩, none⟩) true "boom") 3 = false := by
  refine ⟨?_, ?_, ?_⟩
  · exact (shouldRetry_characterization defaultRetryShouldConfig
      (.typed (.network "socket hang up")) 0 rfl (by decide)).mpr
      ⟨by decide, Or.inl ⟨.network "socket hang up", rfl, by decide⟩⟩
  · exact (shouldRetry_characterization defaultRetryShouldConfig
      (.axios (some ⟨503, ⟨none, none, none, none⟩, none⟩) true "boom") 2 rfl
      (by decide)).mpr
      ⟨by decide, Or.inr (Or.inl ⟨⟨503, ⟨none, none, none, none⟩, none⟩, true, "boom", rfl,
        by decide⟩)⟩
  · have h := (shouldRetry_characterization defaultRetryShouldConfig
      (.axios (some ⟨503, ⟨none, none, none, none⟩, none⟩) true "boom") 3 rfl (by decide))
    by_cases hb : shouldRetry defaultRetryShouldConfig
        (.axios (some ⟨503, ⟨none, none, none, none⟩, none⟩) true "boom") 3 = true
    · have hc := h.mp hb
      exact absurd hc.1 (by decide)
    · simpa using hb

/-! ### Token stores (src/unnamed/part_001 lines 362-376, src/unnamed/part_005)

`MemoryTokenStorage` keeps the token object itself; `FileTokenStorage` and
`EnvTokenStorage` keep `JSON.stringify(token)` in a file / environment
variable and `JSON.parse` it back. The stored text is modelled as the
parsed JSON tree (a `JObj`): `JSON.parse` inverting `JSON.stringify` on
trees is a property of the JS runtime, while what the repository
contributes - which fields are written, that `undefined` fields are
dropped, and the missing-file / unset-variable / unparsable cases mapping
to `null` - is modelled explicitly. -/

/-- `JSON.stringify(token)` as a JSON tree: the four required fields, and
`obtained_at` only when present (`JSON.stringify` drops `undefined`). -/
def tokenToJObj (t : MinimaxToken) : JObj :=
  [("access_token", .str t.access_token),
   ("token_type", .str t.token_type),
   ("expires_in", .num t.expires_in),
   ("refresh_token", .str t.refresh_token)] ++
  (match t.obtained_at with
   | some ob => [("obtained_at", JVal.num ob)]
   | none => [])

/-- Reading a parsed JSON tree back as a `MinimaxToken` (the TS code casts
without validating; on trees produced by `tokenToJObj` - the only trees the
round-trip exercises - this recovers the record exactly). -/
def decodeToken (o : JObj) : Option MinimaxToken :=
  match getProp o "access_token", getProp o "token_type",
      getProp o "expires_in", getProp o "refresh_token" with
  | some (.str a), some (.str ty), some (.num e), some (.str r) =>
    some ⟨a, ty, e, r,
      match getProp o "obtained_at" with
      | some (.num ob) => some ob
      | _ => none⟩
  | _, _, _, _ => none

/-- `MemoryTokenStorage.saveToken`: `this.token = token`. -/
def memorySaveToken (t : MinimaxToken) (_s : Option MinimaxToken) : Option MinimaxToken :=
  some t

/-- `MemoryTokenStorage.getToken`: `return this.token`. -/
def memoryGetToken (s : Option MinimaxToken) : Option MinimaxToken := s

/-- `MemoryTokenStorage.clearToken`: `this.token = null`. -/
def memoryClearToken (_s : Option MinimaxToken) : Option MinimaxToken := none

/-- `FileTokenStorage.saveToken`: write `JSON.stringify(token)` to the
file (state: the file's contents, `none` = file absent). -/
def fileSaveToken (t : MinimaxToken) (_s : Option JObj) : Option JObj :=
  some (tokenToJObj t)

/-- `FileTokenStorage.getToken`: read and parse the file, `null` when the
file is missing or unreadable. -/
def fileGetToken (s : Option JObj) : Option MinimaxToken :=
  match s with
  | none => none
  | some o => decodeToken o

/-- `FileTokenStorage.clearToken`: delete the file. -/
def fileClearToken (_s : Option JObj) : Option JObj := none

/-- `EnvTokenStorage.saveToken`: `process.env[name] = JSON.stringify(token)`
(a stringified token is never the empty string, so the `!tokenJson` guard
in `getToken` coincides with the variable being unset). -/
def envSaveToken (t : MinimaxToken) (_s : Option JObj) : Option JObj :=
  some (tokenToJObj t)

/-- `EnvTokenStorage.getToken`: `null` when unset, parse otherwise. -/
def envGetToken (s : Option JObj) : Option MinimaxToken :=
  match s with
  | none => none
  | some o => decodeToken o

/-- `EnvTokenStorage.clearToken`: `delete process.env[name]`. -/
def envClearToken (_s : Option JObj) : Option JObj := none

theorem decodeToken_tokenToJObj (t : MinimaxToken) : decodeToken (tokenToJObj t) = some t := by
  obtain ⟨a, ty, e, r, ob⟩ := t
  cases ob with
  | none => simp [tokenToJObj, decodeToken, getProp]
  | some o => simp [tokenToJObj, decodeToken, getProp]

/-- C4: for each token store implementation - memory, file-backed and
environment-variable-backed - saving a token and reading it back yields a
value deep-equal (structurally equal) to the saved token, from any prior
store state. -/
theorem tokenStore_roundtrip (t : MinimaxToken) (m : Option MinimaxToken) (f e : Option JObj) :
    memoryGetToken (memorySaveToken t m) = some t ∧
    fileGetToken (fileSaveToken t f) = some t ∧
    envGetToken (envSaveToken t e) = some t := by
  refine ⟨rfl, ?_, ?_⟩
  · simpa [fileSaveToken, fileGetToken] using decodeToken_tokenToJObj t
  · simpa [envSaveToken, envGetToken] using decodeToken_tokenToJObj t

/-! ### Session manager (src/src/auth/session.ts)

The session-scoped mutable state consists of the selected organization id
and (through the OAuth2 client) the token store; `login` delegates to
`OAuth2Client.authenticate` - which on success stamps and persists the
token before returning - and then applies the organization fallback. The
authentication outcome is supplied as a parameter (it is a network
effect). -/

/-- The session-scoped state: selected organization and the token store. -/
structure SessionSt where
  currentOrganizationId : Option String
  store : Option MinimaxToken
deriving DecidableEq

/-- JS truthiness of `string | null`: `null` and the empty string falsy. -/
def orgTruthy : Option String → Bool
  | none => false
  | some s => strTruthy s

/-- `SessionManager.setOrganizationId` (src/src/auth/session.ts, lines
202-204). -/
def setOrganizationId (st : SessionSt) (organizationId : String) : SessionSt :=
  { st with currentOrganizationId := some organizationId }

/-- `SessionManager.login` (src/src/auth/session.ts, lines 118-128): on a
successful authenticate the token is persisted, then
`if (!this.currentOrganizationId) this.currentOrganizationId =
this.config.defaultOrgId || null` - a JS truthiness test on both sides.
On failure the state is untouched and the error propagates. -/
def sessionLogin (defaultOrgId : Option String) (authOutcome : Except MError MinimaxToken)
    (st : SessionSt) : Except MError MinimaxToken × SessionSt :=
  match authOutcome with
  | .error e => (.error e, st)
  | .ok t =>
    let st1 : SessionSt := { st with store := some t }
    if !(orgTruthy st1.currentOrganizationId) then
      (.ok t, { st1 with
        currentOrganizationId := if orgTruthy defaultOrgId then defaultOrgId else none })
    else
      (.ok t, st1)

/-- C7 counterexample: after `setOrganizationId("")` - a non-null
selection - a successful `login` with a configured `defaultOrgId`
overwrites the selection, because `!this.currentOrganizationId` treats the
empty string as unselected; the claim says a non-null selection is never
overwritten. -/
theorem sessionLogin_empty_selection_counterexample :
    (sessionLogin (some "org1") (.ok ⟨"t", "bearer", 3600, "r", some 5⟩)
        (setOrganizationId ⟨none, none⟩ "")).2.currentOrganizationId = some "org1" ∧
    (sessionLogin (some "org1") (.ok ⟨"t", "bearer", 3600, "r", some 5⟩)
        (setOrganizationId ⟨none, none⟩ "")).2.currentOrganizationId ≠ some "" := by
  constructor
  · decide
  · decide

/-- C7 (amended): `login` applies the `defaultOrgId` fallback only when no
organization is selected in the JS-truthy sense (selection null or empty);
a non-empty selection - in particular one made by `setOrganizationId id`
with `id ≠ ""` - is never overwritten; and the only state `login` touches
besides the selection rule is the token store, which on success receives
exactly the token obtained from `authenticate` (on failure the state is
returned untouched and the error propagates). -/
theorem sessionLogin_org_selection (defaultOrgId : Option String)
    (outcome : Except MError MinimaxToken) (st : SessionSt) :
    (∀ id, id ≠ "" →
      (sessionLogin defaultOrgId outcome (setOrganizationId st id)).2.currentOrganizationId =
        some id) ∧
    (orgTruthy st.currentOrganizationId = true →
      (sessionLogin defaultOrgId outcome st).2.currentOrganizationId =
        st.currentOrganizationId) ∧
    (orgTruthy st.currentOrganizationId = false → ∀ t, outcome = .ok t →
      (sessionLogin defaultOrgId outcome st).2.currentOrganizationId =
        (if orgTruthy defaultOrgId then defaultOrgId else none)) ∧
    (∀ t, outcome = .ok t →
      (sessionLogin defaultOrgId outcome st).1 = .ok t ∧
      (sessionLogin defaultOrgId outcome st).2.store = some t) ∧
    (∀ e, outcome = .error e →
      (sessionLogin defaultOrgId outcome st).1 = .error e ∧
      (sessionLogin defaultOrgId outcome st).2 = st) := by
  refine ⟨?_, ?_, ?_, ?_, ?_⟩
  · intro id hid
    cases outcome with
    | error e => simp [sessionLogin, setOrganizationId]
    | ok t =>
      have htr : orgTruthy (some id) = true := by
        simp [orgTruthy, strTruthy, hid]
      simp [sessionLogin, setOrganizationId, htr]
  · intro h
    cases outcome with
    | error e => simp [sessionLogin]
    | ok t => simp [sessionLogin, h]
  · intro h t hout
    subst hout
    simp [sessionLogin, h]
  · intro t hout
    subst hout
    by_cases h : orgTruthy st.currentOrganizationId = true
    · simp [sessionLogin, h]
    · simp only [Bool.not_eq_true] at h
      simp [sessionLogin, h]
  · intro e hout
    subst hout
    simp [sessionLogin]

/-- C7 witness: with a configured default organization, a selection made
by `setOrganizationId "myorg"` survives a subsequent successful login. -/
theorem sessionLogin_org_selection_witness :
    (sessionLogin (some "org1") (.ok ⟨"t", "bearer", 3600, "r", some 5⟩)
        (setOrganizationId ⟨none, none⟩ "myorg")).2.currentOrganizationId = some "myorg" :=
  (sessionLogin_org_selection (some "org1") (.ok ⟨"t", "bearer", 3600, "r", some 5⟩)
    ⟨none, none⟩).1 "myorg" (by decide)

/-! ### Token refresh retry loop (src/src/auth/token-refresh.ts, lines 144-174)

`TokenRefreshManager.attemptRefresh(refreshToken, attemptCount)` calls
`OAuth2Client.refreshToken`, and on failure either rethrows (when
`attemptCount >= maxRefreshAttempts - 1`, JS integer comparison, or when
the error is not retryable) or waits `refreshRetryDelay` and recurses with
`attemptCount + 1`. The network outcomes are supplied as `env k`, the
outcome of the k-th `OAuth2Client.refreshToken` call; the recursion is
phrased structurally over `remaining = (maxRefreshAttempts - 1) -
attemptCount` (over ℕ this coincides with the JS comparison, including
`maxRefreshAttempts = 0`, where `attemptCount >= -1` always holds). -/

/-- The retry test: `error instanceof NetworkError || (error instanceof
AuthenticationError && error.statusCode !== 401)`. -/
def retryableRefreshError : MError → Bool
  | .network _ => true
  | .authentication _ sc => sc != some 401
  | _ => false

instance instDecEqExcept {ε α : Type} [DecidableEq ε] [DecidableEq α] :
    DecidableEq (Except ε α) := fun x y =>
  match x, y with
  | .ok a, .ok b =>
    if h : a = b then .isTrue (by rw [h]) else .isFalse (fun hc => h (Except.ok.inj hc))
  | .ok _, .error _ => .isFalse (fun hc => Except.noConfusion hc)
  | .error _, .ok _ => .isFalse (fun hc => Except.noConfusion hc)
  | .error a, .error b =>
    if h : a = b then .isTrue (by rw [h]) else .isFalse (fun hc => h (Except.error.inj hc))

/-- The observable behaviour of one `attemptRefresh` invocation: its
settled result, how many `OAuth2Client.refreshToken` calls it made, and
the sequence of waits (each `refreshRetryDelay`) between them. -/
structure RefreshRun where
  result : Except MError MinimaxToken
  attempts : Nat
  waits : List Nat
deriving DecidableEq

/-- The retry loop, with `c` the current `attemptCount` and `remaining`
the number of retries still allowed. -/
def attemptRefreshGo (env : Nat → Except MError MinimaxToken) (delay : Nat) :
    Nat → Nat → RefreshRun
  | c, 0 =>
    match env c with
    | .ok t => ⟨.ok t, 1, []⟩
    | .error e => ⟨.error e, 1, []⟩
  | c, remaining + 1 =>
    match env c with
    | .ok t => ⟨.ok t, 1, []⟩
    | .error e =>
      if retryableRefreshError e then
        let q := attemptRefreshGo env delay (c + 1) remaining
        ⟨q.result, q.attempts + 1, delay :: q.waits⟩
      else ⟨.error e, 1, []⟩

/-- `attemptRefresh(refreshToken, 0)` under `maxRefreshAttempts` and
`refreshRetryDelay`. -/
def attemptRefresh (env : Nat → Except MError MinimaxToken) (maxAttempts delay : Nat) :
    RefreshRun :=
  attemptRefreshGo env delay 0 (maxAttempts - 1)

theorem attemptRefreshGo_retry_prefix (env : Nat → Except MError MinimaxToken) (delay : Nat)
    (k : Nat) :
    ∀ c rem, (∀ j, j < k → ∃ e, env (c + j) = .error e ∧ retryableRefreshError e = true) →
      k ≤ rem →
      attemptRefreshGo env delay c rem =
        ⟨(attemptRefreshGo env delay (c + k) (rem - k)).result,
         (attemptRefreshGo env delay (c + k) (rem - k)).attempts + k,
         List.replicate k delay ++ (attemptRefreshGo env delay (c + k) (rem - k)).waits⟩ := by
  induction k with
  | zero =>
    intro c rem henv hle
    simp
  | succ k ih =>
    intro c rem henv hle
    obtain ⟨rem2, rfl⟩ : ∃ rem2, rem = rem2 + 1 := by
      cases rem with
      | zero => omega
      | succ r => exact ⟨r, rfl⟩
    obtain ⟨e, he, hr⟩ := henv 0 (Nat.succ_pos k)
    rw [Nat.add_zero] at he
    have step : attemptRefreshGo env delay c (rem2 + 1) =
        ⟨(attemptRefreshGo env delay (c + 1) rem2).result,
         (attemptRefreshGo env delay (c + 1) rem2).attempts + 1,
         delay :: (attemptRefreshGo env delay (c + 1) rem2).waits⟩ := by
      simp [attemptRefreshGo, he, hr]
    have henv2 : ∀ j, j < k → ∃ e2, env (c + 1 + j) = .error e2 ∧
        retryableRefreshError e2 = true := by
      intro j hj
      have := henv (j + 1) (Nat.succ_lt_succ hj)
      simpa [Nat.add_assoc, Nat.add_comm 1 j] using this
    have hle2 : k ≤ rem2 := Nat.le_of_succ_le_succ hle
    rw [step, ih (c + 1) rem2 henv2 hle2]
    have hc : c + 1 + k = c + (k + 1) := by omega
    have hrem : rem2 - k = rem2 + 1 - (k + 1) := by omega
    rw [hc, hrem]
    simp [List.replicate_succ]
    omega

/-- C2 (amended): a refresh attempt that fails with an error that is not
retryable - in particular an `AuthenticationError` with status 401 -
propagates immediately with no further attempt; attempts that fail with a
`NetworkError` (or an `AuthenticationError` with status other than 401)
are retried after a `refreshRetryDelay` wait, but only while
`attemptCount < maxRefreshAttempts - 1`, so a persistent retryable
failure makes exactly `maxRefreshAttempts` total calls (i.e.
`maxRefreshAttempts - 1` retries, one initial attempt; a single call when
the bound is 0) before the last error propagates. -/
theorem attemptRefresh_retry_policy (env : Nat → Except MError MinimaxToken)
    (maxAttempts delay : Nat) :
    (∀ k e, (∀ j, j < k → ∃ e2, env j = .error e2 ∧ retryableRefreshError e2 = true) →
      k ≤ maxAttempts - 1 → env k = .error e → retryableRefreshError e = false →
      attemptRefresh env maxAttempts delay = ⟨.error e, k + 1, List.replicate k delay⟩) ∧
    (∀ e, (∀ j, j < maxAttempts - 1 → ∃ e2, env j = .error e2 ∧
        retryableRefreshError e2 = true) →
      env (maxAttempts - 1) = .error e →
      attemptRefresh env maxAttempts delay =
        ⟨.error e, (maxAttempts - 1) + 1, List.replicate (maxAttempts - 1) delay⟩) := by
  constructor
  · intro k e henv hk he hnr
    unfold attemptRefresh
    have hpre := attemptRefreshGo_retry_prefix env delay k 0 (maxAttempts - 1)
      (by simpa using henv) hk
    rw [hpre]
    have htail : attemptRefreshGo env delay (0 + k) (maxAttempts - 1 - k) =
        ⟨.error e, 1, []⟩ := by
      cases hrem : maxAttempts - 1 - k with
      | zero => simp [attemptRefreshGo, Nat.zero_add, he]
      | succ r => simp [attemptRefreshGo, Nat.zero_add, he, hnr]
    rw [htail]
    simp [Nat.add_comm]
  · intro e henv he
    unfold attemptRefresh
    have hpre := attemptRefreshGo_retry_prefix env delay (maxAttempts - 1) 0
      (maxAttempts - 1) (by simpa using henv) (Nat.le_refl _)
    rw [hpre]
    have htail : attemptRefreshGo env delay (0 + (maxAttempts - 1))
        (maxAttempts - 1 - (maxAttempts - 1)) = ⟨.error e, 1, []⟩ := by
      rw [Nat.sub_self]
      simp [attemptRefreshGo, Nat.zero_add, he]
    rw [htail]
    simp [Nat.add_comm]

/-- C2 counterexample: with the default `maxRefreshAttempts = 3` and a
persistent `NetworkError`, the loop makes exactly 3 network calls with 2
waits - that is, 2 retries, not the `maxRefreshAttempts = 3` retries (4
total attempts) the claim states. -/
theorem attemptRefresh_three_attempts_counterexample :
    attemptRefresh (fun _ => .error (.network "net down")) 3 1000 =
      ⟨.error (.network "net down"), 3, [1000, 1000]⟩ ∧
    (attemptRefresh (fun _ => .error (.network "net down")) 3 1000).attempts ≠ 3 + 1 := by
  constructor
  · decide
  · decide

/-- C2 witness: a 401 `AuthenticationError` on the very first attempt
propagates with a single network call and no waits. -/
theorem attemptRefresh_retry_policy_witness :
    attemptRefresh (fun _ => .error (.authentication "Authentication failed" (some 401)))
        3 1000 =
      ⟨.error (.authentication "Authentication failed" (some 401)), 1, []⟩ := by
  have h := (attemptRefresh_retry_policy
    (fun _ => .error (.authentication "Authentication failed" (some 401))) 3 1000).1 0
    (.authentication "Authentication failed" (some 401))
    (fun j hj => absurd hj (Nat.not_lt_zero j)) (by omega) rfl (by decide)
  simpa using h

/-! ### Single-flight refresh coordination (src/src/auth/token-refresh.ts, lines 74-133)

`TokenRefreshManager.getValidToken` runs on a single-threaded cooperative
runtime: each caller executes synchronously up to its next `await` and the
scheduler interleaves resumptions. The machine below models N concurrent
callers of `getValidToken()`:

* `invoke i` - caller `i` calls `getValidToken()`: the synchronous prefix
  either returns the in-flight `refreshPromise` (the caller joins
  generation `g`) or suspends at `await this.oauth2Client.getToken()`;
* `resumeGet i` - the storage read resolves: the caller checks validity,
  and either finishes, joins the in-flight refresh, or - as the creator -
  sets `refreshing`, installs a fresh `refreshPromise` backed by
  `attemptRefresh(refreshToken, 0)` (whose first
  `OAuth2Client.refreshToken` network call fires synchronously at that
  moment, counted here), or fails with the no-refresh-token error;
* `settle` - the pending refresh settles with the final result of the
  retry loop (`attemptRefresh`), adding its remaining network calls and,
  on success, persisting the refreshed token to the store. A network
  completion is delivered only once the microtask queue is drained, so
  this event is enabled only while no caller sits at a resolved storage
  read (`awaitingGet`);
* `resumeJoin i` - a caller awaiting a settled generation resumes with its
  result; the creator additionally runs the `finally` block that clears
  `refreshing` and `refreshPromise`.

Generations number successive refresh promises (`settled.length` is the
next generation; `settled g` its settlement). -/

/-- Where one caller of `getValidToken()` currently stands. -/
inductive CallerPhase where
  | notStarted
  | awaitingGet
  | joined (gen : Nat)
  | done (r : Except MError MinimaxToken)
deriving DecidableEq

/-- The shared state of one `TokenRefreshManager` (fields `refreshing`,
`refreshPromise`), its token store, the settlements of the refresh
promises created so far, the number of `OAuth2Client.refreshToken` network
calls made, and the callers' phases. -/
structure SfState where
  store : Option MinimaxToken
  refreshing : Bool
  refreshPromise : Option Nat
  creator : Option Nat
  settled : List (Option (Except MError MinimaxToken))
  networkCalls : Nat
  phases : List CallerPhase
deriving DecidableEq

/-- A scheduler event. -/
inductive SfEvent where
  | invoke (i : Nat)
  | resumeGet (i : Nat)
  | settle
  | resumeJoin (i : Nat)
deriving DecidableEq

/-- The scenario parameters: the coordinator's configured buffer and
retry options, the (frozen) clock, and the deterministic outcomes of the
successive `OAuth2Client.refreshToken` calls. -/
structure SfScen where
  buffer : Int
  now : Int
  maxAttempts : Nat
  delay : Nat
  env : Nat → Except MError MinimaxToken

/-- The error thrown when no valid token and no refresh token exist
(src/src/auth/token-refresh.ts, lines 94-97). -/
def noTokenError : MError :=
  .authentication "No valid token available and no refresh token to obtain a new one" (some 401)

/-- One scheduler step; `none` means the event is not enabled. -/
def sfStep (sc : SfScen) (s : SfState) : SfEvent → Option SfState
  | .invoke i =>
    match s.phases[i]? with
    | some .notStarted =>
      match s.refreshPromise with
      | some g => some { s with phases := s.phases.set i (.joined g) }
      | none => some { s with phases := s.phases.set i .awaitingGet }
    | _ => none
  | .resumeGet i =>
    match s.phases[i]? with
    | some .awaitingGet =>
      match s.store with
      | some t =>
        if isTokenValid (some t) sc.buffer sc.now then
          some { s with phases := s.phases.set i (.done (.ok t)) }
        else if strTruthy t.refresh_token then
          if s.refreshing then
            match s.refreshPromise with
            | some g => some { s with phases := s.phases.set i (.joined g) }
            | none =>
              -- the code's own comment marks this branch unreachable
              -- ("This shouldn't happen, but just in case"): it backs the
              -- promise slot with a bare `oauth2Client.refreshToken` call
              some { s with
                refreshPromise := some s.settled.length,
                settled := s.settled ++ [none],
                networkCalls := s.networkCalls + 1,
                phases := s.phases.set i (.joined s.settled.length) }
          else
            some { s with
              refreshing := true,
              refreshPromise := some s.settled.length,
              creator := some i,
              settled := s.settled ++ [none],
              networkCalls := s.networkCalls + 1,
              phases := s.phases.set i (.joined s.settled.length) }
        else
          some { s with phases := s.phases.set i (.done (.error noTokenError)) }
      | none => some { s with phases := s.phases.set i (.done (.error noTokenError)) }
    | _ => none
  | .settle =>
    match s.refreshPromise with
    | some g =>
      match s.settled[g]? with
      | some none =>
        if s.phases.contains .awaitingGet then none
        else
          let run := attemptRefresh sc.env sc.maxAttempts sc.delay
          some { s with
            settled := s.settled.set g (some run.result),
            networkCalls := s.networkCalls + (run.attempts - 1),
            store := match run.result with
              | .ok t => some t
              | .error _ => s.store }
      | _ => none
    | none => none
  | .resumeJoin i =>
    match s.phases[i]? with
    | some (.joined g) =>
      match s.settled[g]? with
      | some (some r) =>
        if s.creator == some i then
          some { s with
            phases := s.phases.set i (.done r),
            refreshing := false,
            refreshPromise := none,
            creator := none }
        else
          some { s with phases := s.phases.set i (.done r) }
      | _ => none
    | _ => none

/-- Run a sequence of scheduler events. -/
def sfRun (sc : SfScen) : SfState → List SfEvent → Option SfState
  | s, [] => some s
  | s, e :: tr =>
    match sfStep sc s e with
    | some s2 => sfRun sc s2 tr
    | none => none

/-- The initial state: the stored token `t0`, no refresh in flight, `n`
callers about to invoke `getValidToken()`. -/
def sfInit (n : Nat) (t0 : MinimaxToken) : SfState :=
  ⟨some t0, false, none, none, [], 0, List.replicate n .notStarted⟩

/-- Is the event an invocation? -/
def isInvokeEv : SfEvent → Bool
  | .invoke _ => true
  | _ => false

/-- The concurrency premise: every `getValidToken()` call happens before
the refresh settles (no `invoke` event after `settle`). -/
def noInvokeAfterSettle : List SfEvent → Bool
  | [] => true
  | .settle :: tr => tr.all (fun e => !(isInvokeEv e))
  | _ :: tr => noInvokeAfterSettle tr

/-- Is the caller finished? -/
def isDonePhase : CallerPhase → Bool
  | .done _ => true
  | _ => false

/-- Has every caller completed? -/
def allDone (s : SfState) : Bool := s.phases.all isDonePhase

/-- Every (genuine or degenerate) run of the retry loop makes at least one
network call. -/
theorem attemptRefreshGo_attempts_pos (env : Nat → Except MError MinimaxToken)
    (delay : Nat) (c rem : Nat) : 1 ≤ (attemptRefreshGo env delay c rem).attempts := by
  cases rem with
  | zero => cases henv : env c <;> simp [attemptRefreshGo, henv]
  | succ r =>
    cases henv : env c with
    | ok t => simp [attemptRefreshGo, henv]
    | error e =>
      by_cases hr : retryableRefreshError e = true
      · simp [attemptRefreshGo, henv, hr]
      · simp [attemptRefreshGo, henv, hr]

/-- The shape of every reachable state before the refresh settles, when
the stored token is invalid and carries a refresh token: the store still
holds `t0`; `refreshing`, `refreshPromise`, the generation list and the
network-call count move in lockstep (the invariant behind the code's
"shouldn't happen" fallback); and every caller is not started, at the
storage read, or joined to generation 0 (only possible while a refresh is
in flight). -/
def mkPreState (t0 : MinimaxToken) (b : Bool) (cr : Option Nat) (ph : List CallerPhase) :
    SfState :=
  ⟨some t0, b, if b then some 0 else none, cr, if b then [none] else [],
   if b then 1 else 0, ph⟩

/-- Admissible caller phase before settlement. -/
def PrePhase (b : Bool) (p : CallerPhase) : Prop :=
  p = .notStarted ∨ p = .awaitingGet ∨ (p = .joined 0 ∧ b = true)

/-- Pre-settlement invariant. -/
def sfPre (t0 : MinimaxToken) (n : Nat) (s : SfState) : Prop :=
  ∃ b cr ph, s = mkPreState t0 b cr ph ∧ ph.length = n ∧ ∀ p ∈ ph, PrePhase b p

/-- Post-settlement invariant, phrased against the single refresh cycle's
observable run `R`: generation 0 settled with `R.result`, exactly
`R.attempts` network calls in total, and every caller not started, still
joined, or done with `R.result`. -/
def sfPost (R : RefreshRun) (n : Nat) (s : SfState) : Prop :=
  s.settled = [some R.result] ∧ s.networkCalls = R.attempts ∧
  (s.refreshPromise = some 0 ∨ s.refreshPromise = none) ∧
  s.phases.length = n ∧
  ∀ p ∈ s.phases, p = .notStarted ∨ p = .joined 0 ∨ p = .done R.result

theorem sfPre_set_phase (t0 : MinimaxToken) (n : Nat) (b : Bool) (cr : Option Nat)
    (ph : List CallerPhase) (i : Nat) (p : CallerPhase) (hlen : ph.length = n)
    (hmem : ∀ q ∈ ph, PrePhase b q) (hp : PrePhase b p) :
    sfPre t0 n (mkPreState t0 b cr (ph.set i p)) := by
  refine ⟨b, cr, ph.set i p, rfl, by simpa using hlen, ?_⟩
  intro q hq
  rcases List.mem_or_eq_of_mem_set hq with hq2 | rfl
  · exact hmem q hq2
  · exact hp

theorem sfStep_invoke_pre (sc : SfScen) (t0 : MinimaxToken) (n : Nat) (i : Nat)
    (s s2 : SfState) (hs : sfPre t0 n s) (hstep : sfStep sc s (.invoke i) = some s2) :
    sfPre t0 n s2 := by
  obtain ⟨b, cr, ph, rfl, hlen, hmem⟩ := hs
  cases hgi : ph[i]? with
  | none => simp [sfStep, mkPreState, hgi] at hstep
  | some p =>
    cases p with
    | notStarted =>
      cases b with
      | false =>
        simp [sfStep, mkPreState, hgi] at hstep
        subst hstep
        exact sfPre_set_phase t0 n false cr ph i .awaitingGet hlen hmem (Or.inr (Or.inl rfl))
      | true =>
        simp [sfStep, mkPreState, hgi] at hstep
        subst hstep
        exact sfPre_set_phase t0 n true cr ph i (.joined 0) hlen hmem
          (Or.inr (Or.inr ⟨rfl, rfl⟩))
    | awaitingGet => simp [sfStep, mkPreState, hgi] at hstep
    | joined g => simp [sfStep, mkPreState, hgi] at hstep
    | done r => simp [sfStep, mkPreState, hgi] at hstep

theorem sfStep_resumeGet_pre (sc : SfScen) (t0 : MinimaxToken) (n : Nat) (i : Nat)
    (s s2 : SfState)
    (h1 : isTokenValid (some t0) sc.buffer sc.now = false)
    (h2 : strTruthy t0.refresh_token = true)
    (hs : sfPre t0 n s) (hstep : sfStep sc s (.resumeGet i) = some s2) :
    sfPre t0 n s2 := by
  obtain ⟨b, cr, ph, rfl, hlen, hmem⟩ := hs
  cases hgi : ph[i]? with
  | none => simp [sfStep, mkPreState, hgi] at hstep
  | some p =>
    cases p with
    | notStarted => simp [sfStep, mkPreState, hgi] at hstep
    | awaitingGet =>
      cases b with
      | true =>
        simp [sfStep, mkPreState, hgi, h1, h2] at hstep
        subst hstep
        exact sfPre_set_phase t0 n true cr ph i (.joined 0) hlen hmem
          (Or.inr (Or.inr ⟨rfl, rfl⟩))
      | false =>
        simp [sfStep, mkPreState, hgi, h1, h2] at hstep
        subst hstep
        exact sfPre_set_phase t0 n true (some i) ph i (.joined 0) hlen
          (fun q hq => by
            rcases hmem q hq with hq2 | hq2 | hq2
            · exact Or.inl hq2
            · exact Or.inr (Or.inl hq2)
            · exact absurd hq2.2 (by simp))
          (Or.inr (Or.inr ⟨rfl, rfl⟩))
    | joined g => simp [sfStep, mkPreState, hgi] at hstep
    | done r => simp [sfStep, mkPreState, hgi] at hstep

theorem sfStep_settle_pre_to_post (sc : SfScen) (t0 : MinimaxToken) (n : Nat)
    (s s2 : SfState) (hs : sfPre t0 n s) (hstep : sfStep sc s .settle = some s2) :
    sfPost (attemptRefresh sc.env sc.maxAttempts sc.delay) n s2 := by
  obtain ⟨b, cr, ph, rfl, hlen, hmem⟩ := hs
  cases b with
  | false => simp [sfStep, mkPreState] at hstep
  | true =>
    simp [sfStep, mkPreState] at hstep
    obtain ⟨hnotmem, hs2⟩ := hstep
    subst hs2
    have hpos := attemptRefreshGo_attempts_pos sc.env sc.delay 0 (sc.maxAttempts - 1)
    refine ⟨rfl, ?_, Or.inl rfl, hlen, ?_⟩
    · show 1 + ((attemptRefresh sc.env sc.maxAttempts sc.delay).attempts - 1) = _
      unfold attemptRefresh
      omega
    · intro p hp
      have hnaw : p ≠ .awaitingGet := by
        intro hc
        subst hc
        exact hnotmem hp
      rcases hmem p hp with hq | hq | hq
      · exact Or.inl hq
      · exact absurd hq hnaw
      · exact Or.inr (Or.inl hq.1)

theorem sfStep_resumeJoin_pre_none (sc : SfScen) (t0 : MinimaxToken) (n : Nat) (i : Nat)
    (s : SfState) (hs : sfPre t0 n s) : sfStep sc s (.resumeJoin i) = none := by
  obtain ⟨b, cr, ph, rfl, hlen, hmem⟩ := hs
  cases hgi : ph[i]? with
  | none => simp [sfStep, mkPreState, hgi]
  | some p =>
    cases p with
    | notStarted => simp [sfStep, mkPreState, hgi]
    | awaitingGet => simp [sfStep, mkPreState, hgi]
    | done r => simp [sfStep, mkPreState, hgi]
    | joined g =>
      have hp := hmem _ (List.getElem?_mem hgi)
      rcases hp with hq | hq | hq
      · exact absurd hq (by simp)
      · exact absurd hq (by simp)
      · have hg : g = 0 := by
          have := hq.1
          simpa using this
        have hb : b = true := hq.2
        subst hg
        subst hb
        simp [sfStep, mkPreState, hgi]

theorem sfStep_resumeGet_post_none (sc : SfScen) (R : RefreshRun) (n : Nat) (i : Nat)
    (s : SfState) (hs : sfPost R n s) : sfStep sc s (.resumeGet i) = none := by
  obtain ⟨hset, hcalls, hrp, hlen, hmem⟩ := hs
  cases hgi : s.phases[i]? with
  | none => simp [sfStep, hgi]
  | some p =>
    have hp := hmem _ (List.getElem?_mem hgi)
    cases p with
    | notStarted => simp [sfStep, hgi]
    | awaitingGet =>
      rcases hp with hq | hq | hq <;> exact absurd hq (by simp)
    | joined g => simp [sfStep, hgi]
    | done r => simp [sfStep, hgi]

theorem sfStep_settle_post_none (sc : SfScen) (R : RefreshRun) (n : Nat)
    (s : SfState) (hs : sfPost R n s) : sfStep sc s .settle = none := by
  obtain ⟨hset, hcalls, hrp, hlen, hmem⟩ := hs
  rcases hrp with hrp | hrp
  · simp [sfStep, hrp, hset]
  · simp [sfStep, hrp]

theorem sfStep_resumeJoin_post (sc : SfScen) (R : RefreshRun) (n : Nat) (i : Nat)
    (s s2 : SfState) (hs : sfPost R n s)
    (hstep : sfStep sc s (.resumeJoin i) = some s2) : sfPost R n s2 := by
  obtain ⟨hset, hcalls, hrp, hlen, hmem⟩ := hs
  cases hgi : s.phases[i]? with
  | none => simp [sfStep, hgi] at hstep
  | some p =>
    have hp := hmem _ (List.getElem?_mem hgi)
    cases p with
    | notStarted => simp [sfStep, hgi] at hstep
    | awaitingGet => simp [sfStep, hgi] at hstep
    | done r => simp [sfStep, hgi] at hstep
    | joined g =>
      have hg : g = 0 := by
        rcases hp with hq | hq | hq
        · exact absurd hq (by simp)
        · simpa using hq
        · exact absurd hq (by simp)
      subst hg
      have hmem2 : ∀ p ∈ s.phases.set i (.done R.result),
          p = .notStarted ∨ p = .joined 0 ∨ p = .done R.result := by
        intro p hp2
        rcases List.mem_or_eq_of_mem_set hp2 with hp3 | rfl
        · exact hmem p hp3
        · exact Or.inr (Or.inr rfl)
      by_cases hcrea : (s.creator == some i) = true
      · simp [sfStep, hgi, hset, hcrea] at hstep
        subst hstep
        exact ⟨rfl, hcalls, Or.inr rfl, by simpa using hlen, hmem2⟩
      · simp only [Bool.not_eq_true] at hcrea
        simp [sfStep, hgi, hset, hcrea] at hstep
        subst hstep
        exact ⟨rfl, hcalls, hrp, by simpa using hlen, hmem2⟩

theorem sfRun_post_inv (sc : SfScen) (R : RefreshRun) (n : Nat) :
    ∀ tr (s s2 : SfState), sfPost R n s → tr.all (fun e => !(isInvokeEv e)) = true →
      sfRun sc s tr = some s2 → sfPost R n s2 := by
  intro tr
  induction tr with
  | nil =>
    intro s s2 hs hall hrun
    simp [sfRun] at hrun
    subst hrun
    exact hs
  | cons e tr ih =>
    intro s s2 hs hall hrun
    simp only [List.all_cons, Bool.and_eq_true] at hall
    cases hstep : sfStep sc s e with
    | none => simp [sfRun, hstep] at hrun
    | some s3 =>
      simp only [sfRun, hstep] at hrun
      cases e with
      | invoke i => simp [isInvokeEv] at hall
      | resumeGet i =>
        rw [sfStep_resumeGet_post_none sc R n i s hs] at hstep
        exact absurd hstep (by simp)
      | settle =>
        rw [sfStep_settle_post_none sc R n s hs] at hstep
        exact absurd hstep (by simp)
      | resumeJoin i =>
        exact ih s3 s2 (sfStep_resumeJoin_post sc R n i s s3 hs hstep) hall.2 hrun

theorem sfRun_pre_inv (sc : SfScen) (t0 : MinimaxToken) (n : Nat)
    (h1 : isTokenValid (some t0) sc.buffer sc.now = false)
    (h2 : strTruthy t0.refresh_token = true) :
    ∀ tr (s s2 : SfState), sfPre t0 n s → noInvokeAfterSettle tr = true →
      sfRun sc s tr = some s2 →
      sfPre t0 n s2 ∨ sfPost (attemptRefresh sc.env sc.maxAttempts sc.delay) n s2 := by
  intro tr
  induction tr with
  | nil =>
    intro s s2 hs htr hrun
    simp [sfRun] at hrun
    subst hrun
    exact Or.inl hs
  | cons e tr ih =>
    intro s s2 hs htr hrun
    cases hstep : sfStep sc s e with
    | none => simp [sfRun, hstep] at hrun
    | some s3 =>
      simp only [sfRun, hstep] at hrun
      cases e with
      | invoke i =>
        have htr2 : noInvokeAfterSettle tr = true := by
          simpa [noInvokeAfterSettle] using htr
        exact ih s3 s2 (sfStep_invoke_pre sc t0 n i s s3 hs hstep) htr2 hrun
      | resumeGet i =>
        have htr2 : noInvokeAfterSettle tr = true := by
          simpa [noInvokeAfterSettle] using htr
        exact ih s3 s2 (sfStep_resumeGet_pre sc t0 n i s s3 h1 h2 hs hstep) htr2 hrun
      | settle =>
        have htail : tr.all (fun e => !(isInvokeEv e)) = true := by
          simpa [noInvokeAfterSettle] using htr
        exact Or.inr (sfRun_post_inv sc (attemptRefresh sc.env sc.maxAttempts sc.delay) n
          tr s3 s2 (sfStep_settle_pre_to_post sc t0 n s s3 hs hstep) htail hrun)
      | resumeJoin i =>
        rw [sfStep_resumeJoin_pre_none sc t0 n i s hs] at hstep
        exact absurd hstep (by simp)

theorem attemptRefresh_first_attempt_terminal (env : Nat → Except MError MinimaxToken)
    (maxA delay : Nat)
    (h : (∃ t, env 0 = .ok t) ∨ (∃ e, env 0 = .error e ∧ retryableRefreshError e = false) ∨
      maxA ≤ 1) :
    (attemptRefresh env maxA delay).attempts = 1 := by
  unfold attemptRefresh
  rcases h with ⟨t, ht⟩ | ⟨e, he, hr⟩ | hm
  · cases maxA - 1 <;> simp [attemptRefreshGo, ht]
  · cases maxA - 1 <;> simp [attemptRefreshGo, he, hr]
  · have h0 : maxA - 1 = 0 := by omega
    rw [h0]
    cases henv : env 0 <;> simp [attemptRefreshGo, henv]

/-- C1 (amended): when the stored token is invalid but carries a refresh
token, then under every interleaving of N ≥ 1 concurrent
`getValidToken()` callers (all invocations happening before the refresh
settles), once every caller has completed: the coordinator ran exactly one
refresh cycle, the total number of `OAuth2Client.refreshToken` network
calls equals the attempts of that single cycle's retry loop - in
particular exactly one call whenever the first attempt settles the cycle
(success, a non-retryable failure, or `maxRefreshAttempts ≤ 1`) - and
every caller completed with that cycle's single settled result (all the
same refreshed token, or all the same failure). -/
theorem singleFlight_refresh (sc : SfScen) (t0 : MinimaxToken) (n : Nat)
    (tr : List SfEvent) (s2 : SfState)
    (h1 : isTokenValid (some t0) sc.buffer sc.now = false)
    (h2 : strTruthy t0.refresh_token = true)
    (hn : 0 < n)
    (htr : noInvokeAfterSettle tr = true)
    (hrun : sfRun sc (sfInit n t0) tr = some s2)
    (hdone : allDone s2 = true) :
    s2.networkCalls = (attemptRefresh sc.env sc.maxAttempts sc.delay).attempts ∧
    (∀ p ∈ s2.phases, p = .done (attemptRefresh sc.env sc.maxAttempts sc.delay).result) ∧
    (((∃ t, sc.env 0 = .ok t) ∨
      (∃ e, sc.env 0 = .error e ∧ retryableRefreshError e = false) ∨
      sc.maxAttempts ≤ 1) → s2.networkCalls = 1) := by
  have hpre0 : sfPre t0 n (sfInit n t0) := by
    refine ⟨false, none, List.replicate n .notStarted, rfl, by simp, ?_⟩
    intro p hp
    exact Or.inl (List.eq_of_mem_replicate hp)
  rcases sfRun_pre_inv sc t0 n h1 h2 tr (sfInit n t0) s2 hpre0 htr hrun with hpre | hpost
  · obtain ⟨b, cr, ph, rfl, hlen, hmem⟩ := hpre
    have hph : 0 < ph.length := by omega
    obtain ⟨p, hp⟩ := List.exists_mem_of_length_pos hph
    have hd : isDonePhase p = true := by
      have hall := (List.all_eq_true).mp (by simpa [allDone, mkPreState] using hdone)
      exact hall p hp
    rcases hmem p hp with h | h | h
    · subst h; simp [isDonePhase] at hd
    · subst h; simp [isDonePhase] at hd
    · obtain ⟨hj, _⟩ := h
      subst hj
      simp [isDonePhase] at hd
  · obtain ⟨hset, hcalls, hrp, hlen, hmem⟩ := hpost
    refine ⟨hcalls, ?_, ?_⟩
    · intro p hp
      have hd : isDonePhase p = true := by
        have hall := (List.all_eq_true).mp (by simpa [allDone] using hdone)
        exact hall p hp
      rcases hmem p hp with h | h | h
      · subst h; simp [isDonePhase] at hd
      · subst h; simp [isDonePhase] at hd
      · exact h
    · intro hterm
      rw [hcalls]
      exact attemptRefresh_first_attempt_terminal sc.env sc.maxAttempts sc.delay hterm

/-- The refreshed token used in the concrete C1 scenarios. -/
def sfNewTok : MinimaxToken := ⟨"new", "bearer", 3600, "r2", some 1700000000000⟩

/-- An expired stored token carrying a refresh token. -/
def sfOldTok : MinimaxToken := ⟨"old", "bearer", 3600, "r1", some 1000⟩

/-- Scenario in which the first refresh attempt fails with a transient
`NetworkError` and the second succeeds. -/
def sfCexScen : SfScen :=
  ⟨60000, 1700000000000, 3, 1000,
   fun k => if k == 0 then .error (.network "net reset") else .ok sfNewTok⟩

/-- C1 counterexample: a single caller (`N = 1`) invoking
`getValidToken()` on an expired stored token with a refresh token, in a
run whose first refresh attempt fails with a transient `NetworkError`:
the retry loop makes a second `OAuth2Client.refreshToken` network call,
so two calls are made - not exactly one as the claim states - even though
the caller resolves to the refreshed token. -/
theorem singleFlight_counterexample :
    sfRun sfCexScen (sfInit 1 sfOldTok) [.invoke 0, .resumeGet 0, .settle, .resumeJoin 0] =
      some ⟨some sfNewTok, false, none, none, [some (.ok sfNewTok)], 2,
        [.done (.ok sfNewTok)]⟩ ∧
    noInvokeAfterSettle [.invoke 0, .resumeGet 0, .settle, .resumeJoin 0] = true ∧
    isTokenValid (some sfOldTok) 60000 1700000000000 = false ∧
    strTruthy sfOldTok.refresh_token = true ∧
    (2 : Nat) ≠ 1 := by
  refine ⟨by decide, by decide, by decide, by decide, by decide⟩

/-- Scenario in which the refresh succeeds on its first attempt. -/
def sfWitScen : SfScen := ⟨60000, 1700000000000, 3, 1000, fun _ => .ok sfNewTok⟩

/-- An interleaving of two concurrent callers: both invoke, both resume
their storage reads (the first becoming the creator of the refresh, the
second joining it), the refresh settles, both resume with the result. -/
def sfWitTrace : List SfEvent :=
  [.invoke 0, .invoke 1, .resumeGet 0, .resumeGet 1, .settle, .resumeJoin 0, .resumeJoin 1]

/-- The final state of the witness run. -/
def sfWitFinal : SfState :=
  ⟨some sfNewTok, false, none, none, [some (.ok sfNewTok)], 1,
   [.done (.ok sfNewTok), .done (.ok sfNewTok)]⟩

/-- C1 witness: two concurrent callers on an expired stored token, with a
refresh that succeeds on its first attempt: exactly one
`OAuth2Client.refreshToken` network call is made and both callers resolve
to the same refreshed token. -/
theorem singleFlight_refresh_witness :
    sfRun sfWitScen (sfInit 2 sfOldTok) sfWitTrace = some sfWitFinal ∧
    sfWitFinal.networkCalls = 1 ∧
    sfWitFinal.phases = [.done (.ok sfNewTok), .done (.ok sfNewTok)] := by
  have hrun : sfRun sfWitScen (sfInit 2 sfOldTok) sfWitTrace = some sfWitFinal := by decide
  have h := singleFlight_refresh sfWitScen sfOldTok 2 sfWitTrace sfWitFinal (by decide)
    (by decide) (by decide) (by decide) hrun (by decide)
  exact ⟨hrun, h.2.2 (Or.inl ⟨sfNewTok, rfl⟩), by decide⟩
